import Mathlib

/-!
Verification of the go-s3-wrapper S3 client against its specification.

The Go source is shallowly embedded: pure string-building functions of the
SigV4 signer become Lean functions over `String`; the cryptographic
primitives (SHA-256, HMAC-SHA-256, hex encoding) are Go standard-library
collaborators and are therefore abstracted as function parameters — both
the code-side and the spec-side formulas are expressed over the same
abstract primitives, so equalities between them hold for every
instantiation, in particular the real hash functions.

Go `time.Time` values are represented by the pair of formatted strings the
code extracts from them (`now.Format(timeFormat)` and
`now.Format(dateFormat)`); a single `GoTime` value models a single
`time.Now()` reading. Go `map[string]string` values are embedded as
association lists in iteration order, and the in-place mutation of a map
passed by reference is modelled by returning the caller-visible map after
the call.
-/

namespace S3

/-- Constant `signedHeaders` from the signer source. -/
def signedHeaders : String := "host;x-amz-content-sha256;x-amz-date"

/-- Constant `userAgent` from the signer source. -/
def userAgent : String := "spin-s3"

/-- Constant `chunkSize = 4096` from the client source. -/
def chunkSize : Nat := 4096

/-- A Go `time.Time` value, reduced to the two formatted strings the client
reads from it: `now.Format("20060102T150405Z")` and
`now.Format("20060102")`. One `GoTime` value corresponds to one reading of
the clock. -/
structure GoTime where
  timeStamp : String
  dateStamp : String

/-- The fields of the `*http.Request` that the signer consumes:
`req.Method`, `req.Host`, `req.URL.EscapedPath()`, `req.URL.RawQuery`. -/
structure HttpRequest where
  method : String
  host : String
  escapedPath : String
  rawQuery : String

/-- The `Config` struct: credentials, region and endpoint, immutable after
construction. -/
structure Config where
  accessKey : String
  secretKey : String
  sessionToken : String
  region : String
  endpoint : String

section Signer

/- Abstract cryptographic collaborators (Go standard library):
`hmacSHA256 key data` is the raw HMAC-SHA-256 mac (a Go byte slice,
represented as a `String`), `hexEncode` is `hex.EncodeToString`, and
`sha256Hex s` is `hex.EncodeToString(sha256(s))`. -/
variable (hmacSHA256 : String → String → String)
variable (hexEncode : String → String)
variable (sha256Hex : String → String)

/-- Function `getCanonicalRequest` from the signer source: the canonical headers
block is `host:…\nx-amz-content-sha256:…\nx-amz-date:…\n` and the
canonical request is the newline join of method, escaped path, raw query,
that block, the signed-header list and the payload hash. -/
def getCanonicalRequest (req : HttpRequest) (payloadHash : String)
    (now : GoTime) : String :=
  let canonicalHeaders :=
    "host:" ++ req.host ++ "\nx-amz-content-sha256:" ++ payloadHash ++
      "\nx-amz-date:" ++ now.timeStamp ++ "\n"
  String.intercalate "\n"
    [req.method, req.escapedPath, req.rawQuery, canonicalHeaders,
      signedHeaders, payloadHash]

/-- Function `getStringToSign` from the signer source. -/
def getStringToSign (canonicalRequest region : String) (now : GoTime) :
    String :=
  "AWS4-HMAC-SHA256\n" ++ now.timeStamp ++ "\n" ++ now.dateStamp ++ "/" ++
    region ++ "/s3/aws4_request\n" ++ sha256Hex canonicalRequest

/-- Function `getSignature` from the signer source: the four-step HMAC key chain
followed by the hex-encoded final mac. -/
def getSignature (stringToSign region secretKey : String) (now : GoTime) :
    String :=
  let dateKey := hmacSHA256 ("AWS4" ++ secretKey) now.dateStamp
  let regionKey := hmacSHA256 dateKey region
  let serviceKey := hmacSHA256 regionKey "s3"
  let signingKey := hmacSHA256 serviceKey "aws4_request"
  hexEncode (hmacSHA256 signingKey stringToSign)

/-- Function `getAuthorizationHeader` from the signer source. -/
def getAuthorizationHeader (req : HttpRequest)
    (payloadHash region accessKey secretKey : String) (now : GoTime) :
    String :=
  let canonicalRequest := getCanonicalRequest req payloadHash now
  let stringToSign := getStringToSign sha256Hex canonicalRequest region now
  let signature := getSignature hmacSHA256 hexEncode stringToSign region secretKey now
  let credential := String.intercalate "/"
    [accessKey, now.dateStamp, region, "s3", "aws4_request"]
  "AWS4-HMAC-SHA256 Credential=" ++ credential ++ ", SignedHeaders=" ++
    signedHeaders ++ ", Signature=" ++ signature

/-- Modelled from the spec wording of claim C1: the authorization header
value written out as one literal formula — credential scope
`ACCESSKEY/DATE/REGION/s3/aws4_request`, the fixed signed-header list, and
the signature obtained by HMAC-ing the string-to-sign with the
`AWS4…aws4_request` key chain over the canonical request. This definition
follows the claim's words, to be compared with the source embedding. -/
def specAuthorizationHeader (req : HttpRequest)
    (payloadHash region accessKey secretKey : String) (now : GoTime) :
    String :=
  let canonicalRequest :=
    req.method ++ "\n" ++ req.escapedPath ++ "\n" ++ req.rawQuery ++ "\n" ++
      ("host:" ++ req.host ++ "\n" ++
       "x-amz-content-sha256:" ++ payloadHash ++ "\n" ++
       "x-amz-date:" ++ now.timeStamp ++ "\n") ++ "\n" ++
      "host;x-amz-content-sha256;x-amz-date" ++ "\n" ++ payloadHash
  let stringToSign :=
    "AWS4-HMAC-SHA256\n" ++ now.timeStamp ++ "\n" ++
      now.dateStamp ++ "/" ++ region ++ "/s3/aws4_request\n" ++
      sha256Hex canonicalRequest
  let signingKey :=
    hmacSHA256 (hmacSHA256 (hmacSHA256 (hmacSHA256 ("AWS4" ++ secretKey)
      now.dateStamp) region) "s3") "aws4_request"
  let signature := hexEncode (hmacSHA256 signingKey stringToSign)
  "AWS4-HMAC-SHA256 Credential=" ++ accessKey ++ "/" ++ now.dateStamp ++
    "/" ++ region ++ "/s3/aws4_request" ++
    ", SignedHeaders=host;x-amz-content-sha256;x-amz-date, Signature=" ++
    signature

/-- Function `getPayloadHash`: the lowercase-hex SHA-256 of the request body. -/
def getPayloadHash (body : String) : String := sha256Hex body

/-- The headers placed by the buffered-request builder `newRequest` (the
client computes `now := time.Now().UTC()` once; that single reading is the
`now` parameter here). -/
def newRequestHeaders (c : Config) (req : HttpRequest) (body : String)
    (now : GoTime) : List (String × String) :=
  let payloadHash := getPayloadHash sha256Hex body
  [("Authorization", getAuthorizationHeader hmacSHA256 hexEncode sha256Hex
      req payloadHash c.region c.accessKey c.secretKey now),
   ("x-amz-content-sha256", payloadHash),
   ("x-amz-date", now.timeStamp),
   ("User-Agent", userAgent),
   ("Content-Length", toString body.utf8ByteSize)]

/-- The headers placed by the streamed-request builder `newRequestStream`
(unsigned payload sentinel; single `now` reading as above). -/
def newRequestStreamHeaders (c : Config) (req : HttpRequest)
    (now : GoTime) : List (String × String) :=
  [("Authorization", getAuthorizationHeader hmacSHA256 hexEncode sha256Hex
      req "UNSIGNED-PAYLOAD" c.region c.accessKey c.secretKey now),
   ("x-amz-content-sha256", "UNSIGNED-PAYLOAD"),
   ("x-amz-date", now.timeStamp),
   ("User-Agent", userAgent),
   ("Content-Type", "application/octet-stream")]

/-- The headers placed by the streamed-part builder
`newRequestStreamParts` (identical header block to the stream builder;
the part number and upload id only affect the URL). -/
def newRequestStreamPartsHeaders (c : Config) (req : HttpRequest)
    (now : GoTime) : List (String × String) :=
  [("Authorization", getAuthorizationHeader hmacSHA256 hexEncode sha256Hex
      req "UNSIGNED-PAYLOAD" c.region c.accessKey c.secretKey now),
   ("x-amz-content-sha256", "UNSIGNED-PAYLOAD"),
   ("x-amz-date", now.timeStamp),
   ("User-Agent", userAgent),
   ("Content-Type", "application/octet-stream")]

end Signer

/-- Go `req.Header.Get`: the value of the first header with the given name. -/
def headerGet (hs : List (String × String)) (k : String) : Option String :=
  (hs.find? fun p => p.1 = k).map Prod.snd

/-!
Query-string assembly of `buildEndpointWithQuery` (s3.go). A Go
`map[string]string` is embedded as an association list whose order is the
map's iteration order (Go map iteration order is unspecified, so every
permutation of the entries is a possible iteration order). The code walks
the map in iteration order, skips empty keys, renders each entry as
`key=value` with no percent-encoding, and joins the parts with `&`.
-/

/-- The `queryPart` slice built by `buildEndpointWithQuery`: one
`key=value` string per map entry, in iteration order, empty keys
skipped. -/
def queryParts (query : List (String × String)) : List String :=
  (query.filter fun p => p.1 ≠ "").map fun p => p.1 ++ "=" ++ p.2

/-- The second loop of `buildEndpointWithQuery`: fold the parts into one
string, the first part as-is and every later one preceded by `&`. -/
def joinQueryData : List String → String
  | [] => ""
  | v :: rest => rest.foldl (fun acc w => acc ++ "&" ++ w) v

/-- The query-string component appended after `?` by
`buildEndpointWithQuery`, which is also the `RawQuery` the signer sees. -/
def buildEndpointQueryData (query : List (String × String)) : String :=
  joinQueryData (queryParts query)

/-!
Range splitting of the multipart coordinator `handleCopy`
(examples/sample-multipart). The coordinator fixes
`partSize := 10100000`, computes `partCount := i/partSize + 1` with Go
integer (floor) division, and for part `current` (1-based) fetches byte
range `[(current-1)*partSize, current*partSize - 1]`, except the last
part which fetches `[(current-1)*partSize, i - 1]`.
-/

/-- The `partSize` constant of `handleCopy`. -/
def handleCopyPartSize : Nat := 10100000

/-- Expression `partCount := i/partSize + 1` from `handleCopy` (floor division). -/
def partCount (i partSize : Nat) : Nat := i / partSize + 1

/-- One part's number and inclusive byte range, as driven by
`handleCopy`'s loop. -/
structure PartRange where
  partNumber : Nat
  rangeStart : Nat
  rangeEnd : Nat
deriving DecidableEq, Repr

/-- The sequence of `GetObjectPart` byte ranges issued by `handleCopy`'s
loop for object size `i` and the given part size: part `current` covers
`[(current-1)*partSize, current*partSize - 1]`, and the final part
(`current = partCount`) covers `[(current-1)*partSize, i - 1]`. -/
def partRanges (i partSize : Nat) : List PartRange :=
  (List.range (partCount i partSize)).map fun idx =>
    let current := idx + 1
    if current = partCount i partSize then
      { partNumber := current, rangeStart := (current - 1) * partSize,
        rangeEnd := i - 1 }
    else
      { partNumber := current, rangeStart := (current - 1) * partSize,
        rangeEnd := current * partSize - 1 }

/-!
Execution model of `handleCopy`'s multipart branch. The S3 client calls
the loop issues are recorded as a trace; the outcomes of the two
fallible collaborators (`GetObjectPart` on the source client and
`UploadPart` on the target client) are supplied by an oracle indexed by
part number. A `.error` oracle outcome models a genuine (non-EOF)
failure, on which the Go code returns from the handler early; `.ok`
models success (for `UploadPart`, carrying the response ETag verbatim).
-/

/-- One S3 client call made by `handleCopy`'s multipart branch. -/
inductive S3Call where
  | createMultipartUpload
  | getObjectPart (rangeStart rangeEnd : Nat)
  | uploadPart (partNumber size : Nat)
  | completeMultipartUpload (parts : List (Nat × String))
  | abortMultipartUpload (uploadId : String)
deriving DecidableEq, Repr

/-- Outcomes of the per-part collaborator calls, by part number. -/
structure CopyOracle where
  getPart : Nat → Except String Unit
  upload : Nat → Except String String

/-- The loop `for current <= partCount` of `handleCopy`, with
`fuel = partCount + 1 - current` remaining iterations. Each iteration
fetches the part's byte range from the source and streams it to the
target; any failure returns the handler early with that error and the
trace so far; after the loop `CompleteMultipartUpload` is called with the
accumulated part list. Returns (trace, partsInfo, error). -/
def copyLoop (o : CopyOracle) (i partSize pc : Nat) :
    Nat → Nat → List S3Call → List (Nat × String) →
      List S3Call × List (Nat × String) × Option String
  | 0, _, trace, parts =>
    (trace ++ [S3Call.completeMultipartUpload parts], parts, none)
  | fuel + 1, current, trace, parts =>
    let rangeStart := (current - 1) * partSize
    let rangeEnd := if current = pc then i - 1 else current * partSize - 1
    let size := if current = pc then i % partSize else partSize
    match o.getPart current with
    | Except.error e =>
      (trace ++ [S3Call.getObjectPart rangeStart rangeEnd], parts, some e)
    | Except.ok _ =>
      match o.upload current with
      | Except.error e =>
        (trace ++ [S3Call.getObjectPart rangeStart rangeEnd,
          S3Call.uploadPart current size], parts, some e)
      | Except.ok tag =>
        copyLoop o i partSize pc fuel (current + 1)
          (trace ++ [S3Call.getObjectPart rangeStart rangeEnd,
            S3Call.uploadPart current size])
          (parts ++ [(current, tag)])

/-- The multipart branch of `handleCopy` (taken when `i > partSize`):
initiate the upload, run the part loop from `current = 1`, and complete
on success. -/
def handleCopyMultipart (o : CopyOracle) (i partSize : Nat) :
    List S3Call × List (Nat × String) × Option String :=
  copyLoop o i partSize (partCount i partSize) (partCount i partSize) 1
    [S3Call.createMultipartUpload] []

/-- Whether a call is an `AbortMultipartUpload` invocation. -/
def S3Call.isAbort : S3Call → Bool
  | S3Call.abortMultipartUpload _ => true
  | _ => false

/-- Whether a call is a `CompleteMultipartUpload` invocation. -/
def S3Call.isComplete : S3Call → Bool
  | S3Call.completeMultipartUpload _ => true
  | _ => false

/-- Oracle simulating a failure of the upload of part 2, all other calls
succeeding. -/
def failPart2Oracle : CopyOracle where
  getPart := fun _ => Except.ok ()
  upload := fun n => if n = 2 then Except.error "upload of part 2 failed"
    else Except.ok "etag-ok"

/-- Oracle on which every part fetch and upload succeeds, the upload of
part `n` returning the opaque ETag `tag-<n>`. -/
def allOkOracle : CopyOracle where
  getPart := fun _ => Except.ok ()
  upload := fun n => Except.ok ("tag-" ++ toString n)

/-!
The request dispatcher `do`. The external HTTP executor returns a Go
pair (response, error); its outcomes are embedded as
`Option HttpResponse × Option GoError`, with `GoError.eof` standing for
`io.EOF`. The XML decoding of the error body is a standard-library
collaborator, abstracted as a parameter. `DoResult.nilDereference` marks
the outcomes on which the Go code dereferences a nil `*http.Response`
(reading `resp.StatusCode`) and panics at run time.
-/

/-- The XML error-body schema `{Code, Message, Resource, RequestId}`. -/
structure ErrorResponse where
  code : String
  message : String
  resource : String
  requestId : String
deriving DecidableEq, Repr

/-- A received HTTP response: status code and body. -/
structure HttpResponse where
  statusCode : Nat
  body : String
deriving DecidableEq, Repr

/-- A Go error value as tested by the client: `io.EOF` or any other
error. -/
inductive GoError where
  | eof
  | errOther (msg : String)
deriving DecidableEq, Repr

/-- The outcome of the dispatcher `do`. -/
inductive DoResult where
  | ok (resp : HttpResponse)
  | transportError (msg : String)
  | decodeError (msg : String)
  | protocolError (e : ErrorResponse)
  | nilDereference
deriving DecidableEq, Repr

/-- Method `do` from the client source: a non-nil, non-EOF executor error is
wrapped as a transport error; otherwise the code reads
`resp.StatusCode` (a nil-pointer dereference when the executor returned
no response), decodes the error body when the status is at least 300
(decode failure giving a decode error, success a typed protocol error),
and returns the response as success otherwise. -/
def clientDo (decodeErrorBody : String → Except String ErrorResponse)
    (resp : Option HttpResponse) (err : Option GoError) : DoResult :=
  match err with
  | some (GoError.errOther msg) => DoResult.transportError msg
  | _ =>
    match resp with
    | none => DoResult.nilDereference
    | some r =>
      if 300 ≤ r.statusCode then
        match decodeErrorBody r.body with
        | Except.error msg => DoResult.decodeError msg
        | Except.ok e => DoResult.protocolError e
      else DoResult.ok r

/-- A decoder accepting the `NoSuchKey` XML error body, used to
instantiate the abstract decoder on a concrete 404. -/
def decodeNoSuchKey : String → Except String ErrorResponse :=
  fun _ => Except.ok
    { code := "NoSuchKey",
      message := "The specified key does not exist.",
      resource := "/bucket/key", requestId := "REQ-1" }

/-!
The bounded chunk reader. A `Read` call on the wrapped source is a
function from the offered buffer length to an outcome (byte count and Go
error); the `chunkReader` struct holds only the source (no buffer of its
own), and its `Read` re-slices the caller's buffer to at most `chunkSize`
before delegating.
-/

/-- The (count, error) pair returned by a Go `Read` call. -/
structure ReadOutcome where
  n : Nat
  err : Option GoError
deriving DecidableEq, Repr

/-- Method `chunkReader.Read`: if the caller's buffer is longer than `chunkSize`
it is re-sliced to `chunkSize`, then the wrapped source's `Read` is
returned unchanged. -/
def chunkReaderRead (srcRead : Nat → ReadOutcome) (plen : Nat) :
    ReadOutcome :=
  if plen > chunkSize then srcRead chunkSize else srcRead plen

/-- A concrete wrapped source: at most 100 bytes ready per call, ending
with `io.EOF`. -/
def srcRead100 : Nat → ReadOutcome :=
  fun cap => { n := min cap 100, err := some GoError.eof }

/-!
Query-map mutation of the per-operation wrappers. Go maps are reference
values: `query["versions"] = ""` writes through the caller's map. A map
is embedded as an association list with unique keys; `mapSet` is Go map
assignment and `mapGet` is Go map lookup. Each wrapper's query
preparation returns the pair (map used for the request, caller-visible
map after the call): when the caller passed a non-nil map the two are the
same mutated object, and only a nil caller map is replaced by a fresh one
the caller never sees.
-/

/-- Go map assignment `m[k] = v` on an association list. -/
def mapSet : List (String × String) → String → String →
    List (String × String)
  | [], k, v => [(k, v)]
  | (k', v') :: rest, k, v =>
    if k' = k then (k, v) :: rest else (k', v') :: mapSet rest k v

/-- Go map lookup `m[k]` on an association list. -/
def mapGet : List (String × String) → String → Option String
  | [], _ => none
  | (k', v') :: rest, k => if k' = k then some v' else mapGet rest k

/-- The query preparation of `ListObjectVersions`: replace a nil map by a
fresh one, then set the sub-resource key `versions` to the empty string
(in place, through the caller's reference, when the map was non-nil). -/
def listObjectVersionsQueryPrep
    (query : Option (List (String × String))) :
    List (String × String) × Option (List (String × String)) :=
  match query with
  | none => (mapSet [] "versions" "", none)
  | some m =>
    let m2 := mapSet m "versions" ""
    (m2, some m2)

/-- The query preparation of `ListParts`: replace a nil map by a fresh
one, then set `uploadId` to the session's upload id (in place, through
the caller's reference, when the map was non-nil). -/
def listPartsQueryPrep (uploadId : String)
    (query : Option (List (String × String))) :
    List (String × String) × Option (List (String × String)) :=
  match query with
  | none => (mapSet [] "uploadId" uploadId, none)
  | some m =>
    let m2 := mapSet m "uploadId" uploadId
    (m2, some m2)

theorem intercalate_five (s a b c d e : String) :
    String.intercalate s [a, b, c, d, e] =
      a ++ s ++ b ++ s ++ c ++ s ++ d ++ s ++ e := by
  simp [String.intercalate, String.intercalate.go, String.append_assoc]

theorem intercalate_six (s a b c d e f : String) :
    String.intercalate s [a, b, c, d, e, f] =
      a ++ s ++ b ++ s ++ c ++ s ++ d ++ s ++ e ++ s ++ f := by
  simp [String.intercalate, String.intercalate.go, String.append_assoc]

/-- Claim C1: for every method, host, canonical path, canonical query,
payload hash, region, access key, secret key and timestamp (and every
instantiation of the abstract SHA-256 / HMAC-SHA-256 / hex primitives),
the Authorization header value produced by the signer equals the SigV4
formula stated in the spec: credential scope, fixed signed-header list,
and signature = hex HMAC of the string-to-sign under the four-step
signing-key chain, over the canonical request built from the three
canonical headers. -/
theorem getAuthorizationHeader_eq_spec
    (hmacSHA256 : String → String → String) (hexEncode : String → String)
    (sha256Hex : String → String) (req : HttpRequest)
    (payloadHash region accessKey secretKey : String) (now : GoTime) :
    getAuthorizationHeader hmacSHA256 hexEncode sha256Hex req
        payloadHash region accessKey secretKey now =
      specAuthorizationHeader hmacSHA256 hexEncode sha256Hex req
        payloadHash region accessKey secretKey now := by
  unfold getAuthorizationHeader specAuthorizationHeader
  unfold getCanonicalRequest getStringToSign getSignature signedHeaders
  rw [intercalate_five, intercalate_six]
  simp [String.append_assoc]

/-- Claim C2, failing input: presenting the map
`{"uploadId": "abc", "partNumber": "5"}` in the iteration order
`uploadId` first, `buildEndpointWithQuery` emits
`uploadId=abc&partNumber=5` — the entries in iteration order, unsorted —
and not the sorted canonical string `partNumber=5&uploadId=abc` the claim
requires for every iteration order. -/
theorem buildEndpointQueryData_not_sorted :
    buildEndpointQueryData [("uploadId", "abc"), ("partNumber", "5")] =
        "uploadId=abc&partNumber=5" ∧
      buildEndpointQueryData [("uploadId", "abc"), ("partNumber", "5")] ≠
        "partNumber=5&uploadId=abc" := by
  refine ⟨rfl, ?_⟩
  decide

/-- Claim C3, evaluated at the failing input: for a total size that is an
exact multiple of the part size (here `2 * 10100000`, which exceeds the
part size so the multipart path runs), the code computes three parts
where `ceil(totalSize/partSize) = 2`, and the extra third part covers the
degenerate byte range `[totalSize, totalSize - 1]`. On the spec's worked
example (size 25, part size 10, not an exact multiple) the code does
produce the claimed parts `[0-9], [10-19], [20-24]`. -/
theorem partCount_exact_multiple_off_by_one :
    partCount (2 * handleCopyPartSize) handleCopyPartSize = 3 ∧
      (2 * handleCopyPartSize + handleCopyPartSize - 1) / handleCopyPartSize
        = 2 ∧
      (partRanges (2 * handleCopyPartSize) handleCopyPartSize).getLast? =
        some { partNumber := 3, rangeStart := 2 * handleCopyPartSize,
               rangeEnd := 2 * handleCopyPartSize - 1 } ∧
      partRanges 25 10 =
        [{ partNumber := 1, rangeStart := 0, rangeEnd := 9 },
         { partNumber := 2, rangeStart := 10, rangeEnd := 19 },
         { partNumber := 3, rangeStart := 20, rangeEnd := 24 }] := by
  refine ⟨rfl, rfl, ?_, rfl⟩
  rfl

theorem copyLoop_error_no_complete_abort (o : CopyOracle)
    (i partSize pc : Nat) :
    ∀ fuel current trace parts,
      ((copyLoop o i partSize pc fuel current trace parts).2.2.isSome) →
      ((copyLoop o i partSize pc fuel current trace parts).1.all
          fun c => ¬ c.isAbort ∧ ¬ c.isComplete) =
        (trace.all fun c => ¬ c.isAbort ∧ ¬ c.isComplete) := by
  intro fuel
  induction fuel with
  | zero =>
    intro current trace parts h
    simp [copyLoop] at h
  | succ n ih =>
    intro current trace parts h
    simp only [copyLoop] at h ⊢
    cases hg : o.getPart current with
    | error e =>
      simp [hg, List.all_append, S3Call.isAbort, S3Call.isComplete]
    | ok u =>
      cases hu : o.upload current with
      | error e =>
        simp [hg, hu, List.all_append, S3Call.isAbort, S3Call.isComplete]
      | ok tag =>
        simp only [hg, hu] at h ⊢
        rw [ih _ _ _ h]
        simp [List.all_append, S3Call.isAbort, S3Call.isComplete]

/-- Claim C4, counterexample: on an object of size 25 with part size 10
(three parts), a simulated failure of the upload of part 2 makes
`handleCopy` return early with that error; `CompleteMultipartUpload` is
indeed never called, but contrary to the claim `AbortMultipartUpload` is
not invoked either — the trace is exactly initiate, part 1 fetch/upload,
part 2 fetch/upload, with no abort call. -/
theorem handleCopy_part_failure_no_abort :
    handleCopyMultipart failPart2Oracle 25 10 =
      ([S3Call.createMultipartUpload,
        S3Call.getObjectPart 0 9, S3Call.uploadPart 1 10,
        S3Call.getObjectPart 10 19, S3Call.uploadPart 2 10],
       [(1, "etag-ok")], some "upload of part 2 failed") ∧
      ((handleCopyMultipart failPart2Oracle 25 10).1.all
        fun c => ¬ c.isAbort) := by
  refine ⟨?_, ?_⟩ <;> decide

/-- Claim C4 as amended: when a part fetch or part upload fails, the
coordinator stops and surfaces that error, and `CompleteMultipartUpload`
is never called for the session — but no `AbortMultipartUpload` is issued
either; the session is left dangling, to be reclaimed by the separate
listing/abort garbage-collection handler. -/
theorem handleCopy_part_failure_stops_without_abort (o : CopyOracle)
    (i partSize : Nat)
    (h : (handleCopyMultipart o i partSize).2.2.isSome) :
    (handleCopyMultipart o i partSize).1.all
      (fun c => ¬ c.isAbort ∧ ¬ c.isComplete) = true := by
  unfold handleCopyMultipart at h ⊢
  rw [copyLoop_error_no_complete_abort o i partSize _ _ _ _ _ h]
  decide

/-- Witness for `handleCopy_part_failure_stops_without_abort` at the
failing oracle with size 25 and part size 10. -/
theorem handleCopy_part_failure_stops_without_abort_witness :
    (handleCopyMultipart failPart2Oracle 25 10).1.all
      (fun c => ¬ c.isAbort ∧ ¬ c.isComplete) = true :=
  handleCopy_part_failure_stops_without_abort failPart2Oracle 25 10
    (by decide)

theorem copyLoop_success_parts (o : CopyOracle) (i partSize pc : Nat) :
    ∀ fuel current trace parts,
      (copyLoop o i partSize pc fuel current trace parts).2.2 = none →
      ∃ newParts : List (Nat × String),
        (copyLoop o i partSize pc fuel current trace parts).2.1 =
            parts ++ newParts ∧
          newParts.map Prod.fst = List.range' current fuel ∧
          (∀ p ∈ newParts, o.upload p.1 = Except.ok p.2) ∧
          (copyLoop o i partSize pc fuel current trace parts).1.getLast? =
            some (S3Call.completeMultipartUpload (parts ++ newParts)) := by
  intro fuel
  induction fuel with
  | zero =>
    intro current trace parts _
    refine ⟨[], by simp [copyLoop], by simp, by simp, ?_⟩
    simp [copyLoop]
  | succ n ih =>
    intro current trace parts h
    simp only [copyLoop] at h ⊢
    cases hg : o.getPart current with
    | error e => simp [hg] at h
    | ok u =>
      cases hu : o.upload current with
      | error e => simp [hg, hu] at h
      | ok tag =>
        simp only [hg, hu] at h ⊢
        obtain ⟨newParts, hparts, hmap, hup, hlast⟩ := ih _ _ _ h
        refine ⟨(current, tag) :: newParts, ?_, ?_, ?_, ?_⟩
        · rw [hparts]; simp
        · simp [hmap, List.range'_succ]
        · intro p hp
          rcases List.mem_cons.mp hp with h1 | h2
          · subst h1; exact hu
          · exact hup p h2
        · rw [hlast]; simp

/-- Claim C6: whenever `handleCopy`'s multipart branch reaches completion
(no part failed), the part list handed to `CompleteMultipartUpload` is
exactly parts numbered `1, 2, …, partCount` in ascending order — sorted,
gapless and duplicate-free — and each entry carries verbatim the ETag
string its `UploadPart` call returned; the final client call of the run
is `CompleteMultipartUpload` with exactly that list. -/
theorem handleCopy_completion_sorted_parts (o : CopyOracle)
    (i partSize : Nat)
    (h : (handleCopyMultipart o i partSize).2.2 = none) :
    (handleCopyMultipart o i partSize).2.1.map Prod.fst =
        List.range' 1 (partCount i partSize) ∧
      (∀ p ∈ (handleCopyMultipart o i partSize).2.1,
        o.upload p.1 = Except.ok p.2) ∧
      (handleCopyMultipart o i partSize).1.getLast? =
        some (S3Call.completeMultipartUpload
          (handleCopyMultipart o i partSize).2.1) := by
  unfold handleCopyMultipart at h ⊢
  obtain ⟨newParts, hparts, hmap, hup, hlast⟩ :=
    copyLoop_success_parts o i partSize (partCount i partSize)
      (partCount i partSize) 1 [S3Call.createMultipartUpload] [] h
  refine ⟨?_, ?_, ?_⟩
  · rw [hparts]; simpa using hmap
  · intro p hp
    rw [hparts] at hp
    exact hup p (by simpa using hp)
  · rw [hparts, hlast]

/-- Witness for `handleCopy_completion_sorted_parts`: with every upload
succeeding, size 25 and part size 10 complete with the part numbers
`[1, 2, 3]` and the final call is the completion with that list. -/
theorem handleCopy_completion_sorted_parts_witness :
    (handleCopyMultipart allOkOracle 25 10).2.1.map Prod.fst =
        List.range' 1 (partCount 25 10) ∧
      (handleCopyMultipart allOkOracle 25 10).1.getLast? =
        some (S3Call.completeMultipartUpload
          (handleCopyMultipart allOkOracle 25 10).2.1) :=
  ⟨(handleCopy_completion_sorted_parts allOkOracle 25 10 (by decide)).1,
   (handleCopy_completion_sorted_parts allOkOracle 25 10 (by decide)).2.2⟩

/-- Claim C5: for every received response and every error-body decoder,
the dispatcher classifies by status code — at least 300 with a decodable
body gives the typed protocol error carrying the parsed
code/message/resource/requestId; at least 300 with an undecodable body
gives the distinct decode error; below 300 the response is returned as
success. -/
theorem clientDo_classification
    (decodeErrorBody : String → Except String ErrorResponse)
    (r : HttpResponse) :
    (∀ e, 300 ≤ r.statusCode → decodeErrorBody r.body = Except.ok e →
        clientDo decodeErrorBody (some r) none = DoResult.protocolError e) ∧
      (∀ m, 300 ≤ r.statusCode → decodeErrorBody r.body = Except.error m →
        clientDo decodeErrorBody (some r) none = DoResult.decodeError m) ∧
      (r.statusCode < 300 →
        clientDo decodeErrorBody (some r) none = DoResult.ok r) := by
  refine ⟨?_, ?_, ?_⟩
  · intro e hs hd
    simp [clientDo, hs, hd]
  · intro m hs hd
    simp [clientDo, hs, hd]
  · intro hs
    simp [clientDo, Nat.not_le.mpr hs]

/-- Witness for `clientDo_classification`: a 404 whose body decodes as
`NoSuchKey` yields the protocol error carrying that code. -/
theorem clientDo_classification_witness :
    clientDo decodeNoSuchKey
        (some
          { statusCode := 404,
            body := "<Error><Code>NoSuchKey</Code></Error>" }) none =
      DoResult.protocolError
        { code := "NoSuchKey",
          message := "The specified key does not exist.",
          resource := "/bucket/key", requestId := "REQ-1" } :=
  (clientDo_classification decodeNoSuchKey
      { statusCode := 404,
        body := "<Error><Code>NoSuchKey</Code></Error>" }).1
    _ (by decide) rfl

/-- Claim C9, evaluated at the failing input: when the executor returns
no response together with the error `io.EOF` (or no error at all), the
dispatcher reaches `resp.StatusCode` with a nil response — a runtime
nil-pointer dereference, not a typed error result; only a non-nil,
non-EOF error takes the typed transport-error path. -/
theorem clientDo_nil_response_dereference :
    clientDo decodeNoSuchKey none (some GoError.eof) =
        DoResult.nilDereference ∧
      clientDo decodeNoSuchKey none none = DoResult.nilDereference ∧
      clientDo decodeNoSuchKey none (some (GoError.errOther "refused")) =
        DoResult.transportError "refused" :=
  ⟨rfl, rfl, rfl⟩

/-- Claim C7: in each of the three request builders (buffered, streamed,
streamed-part), the `x-amz-date` header placed on the request and the
timestamp from which the Authorization header's string-to-sign and
signing key are computed are the same single clock reading `now`. -/
theorem newRequest_single_timestamp
    (hmacSHA256 : String → String → String) (hexEncode : String → String)
    (sha256Hex : String → String) (c : Config) (req : HttpRequest)
    (body : String) (now : GoTime) :
    (headerGet (newRequestHeaders hmacSHA256 hexEncode sha256Hex
          c req body now) "x-amz-date" = some now.timeStamp ∧
        headerGet (newRequestHeaders hmacSHA256 hexEncode sha256Hex
          c req body now) "Authorization" =
          some (getAuthorizationHeader hmacSHA256 hexEncode sha256Hex req
            (getPayloadHash sha256Hex body) c.region c.accessKey
            c.secretKey now)) ∧
      (headerGet (newRequestStreamHeaders hmacSHA256 hexEncode sha256Hex
          c req now) "x-amz-date" = some now.timeStamp ∧
        headerGet (newRequestStreamHeaders hmacSHA256 hexEncode sha256Hex
          c req now) "Authorization" =
          some (getAuthorizationHeader hmacSHA256 hexEncode sha256Hex req
            "UNSIGNED-PAYLOAD" c.region c.accessKey c.secretKey now)) ∧
      (headerGet (newRequestStreamPartsHeaders hmacSHA256 hexEncode
          sha256Hex c req now) "x-amz-date" = some now.timeStamp ∧
        headerGet (newRequestStreamPartsHeaders hmacSHA256 hexEncode
          sha256Hex c req now) "Authorization" =
          some (getAuthorizationHeader hmacSHA256 hexEncode sha256Hex req
            "UNSIGNED-PAYLOAD" c.region c.accessKey c.secretKey now)) :=
  ⟨⟨rfl, rfl⟩, ⟨rfl, rfl⟩, ⟨rfl, rfl⟩⟩

/-- Claim C8: provided the wrapped source honours the `Read` contract
(never reporting more bytes than the buffer it was offered), a single
`chunkReader.Read` with a caller buffer of length `plen` delegates to the
source with a buffer of length `min plen 4096`, hence returns at most
`min plen 4096` bytes, and returns the source's byte count and error
(end-of-stream included) entirely unchanged; the reader holds no buffer
of its own. -/
theorem chunkReaderRead_bounded (srcRead : Nat → ReadOutcome)
    (plen : Nat) (hsrc : ∀ cap, (srcRead cap).n ≤ cap) :
    chunkReaderRead srcRead plen = srcRead (min plen chunkSize) ∧
      (chunkReaderRead srcRead plen).n ≤ min plen chunkSize ∧
      (chunkReaderRead srcRead plen).err =
        (srcRead (min plen chunkSize)).err := by
  have h : chunkReaderRead srcRead plen = srcRead (min plen chunkSize) := by
    unfold chunkReaderRead
    split <;> (congr 1; simp [chunkSize] at *; omega)
  refine ⟨h, ?_, by rw [h]⟩
  rw [h]
  exact hsrc (min plen chunkSize)

/-- Witness for `chunkReaderRead_bounded` at a 100-bytes-ready source and
a 10000-byte caller buffer. -/
theorem chunkReaderRead_bounded_witness :
    chunkReaderRead srcRead100 10000 = srcRead100 (min 10000 chunkSize) ∧
      (chunkReaderRead srcRead100 10000).n ≤ min 10000 chunkSize ∧
      (chunkReaderRead srcRead100 10000).err =
        (srcRead100 (min 10000 chunkSize)).err :=
  chunkReaderRead_bounded srcRead100 10000
    (fun cap => Nat.min_le_left cap 100)

theorem mapGet_mapSet (m : List (String × String)) (k v : String) :
    mapGet (mapSet m k v) k = some v := by
  induction m with
  | nil => simp [mapSet, mapGet]
  | cons p rest ih =>
    by_cases h : p.1 = k
    · simp [mapSet, mapGet, h]
    · simp [mapSet, mapGet, h, ih]

/-- Claim C10: the wrappers that take a caller-supplied query map mutate
it in place — here `ListObjectVersions` (sub-resource key `versions`) and
`ListParts` (key `uploadId`): for every non-nil caller map, the map the
caller holds after the call is the mutated map used for the request and
it contains the inserted entry; a nil caller map is the only case where a
fresh map is created, and the caller's nil is left untouched. -/
theorem queryPrep_mutates_caller_map (m : List (String × String))
    (uploadId : String) :
    (listObjectVersionsQueryPrep (some m)).2 =
        some (listObjectVersionsQueryPrep (some m)).1 ∧
      mapGet (listObjectVersionsQueryPrep (some m)).1 "versions" =
        some "" ∧
      (listObjectVersionsQueryPrep none).2 = none ∧
      (listPartsQueryPrep uploadId (some m)).2 =
        some (listPartsQueryPrep uploadId (some m)).1 ∧
      mapGet (listPartsQueryPrep uploadId (some m)).1 "uploadId" =
        some uploadId ∧
      (listPartsQueryPrep uploadId none).2 = none :=
  ⟨rfl, mapGet_mapSet m "versions" "", rfl, rfl,
    mapGet_mapSet m "uploadId" uploadId, rfl⟩

end S3
